import Mathlib

/-!
Verification development for the StreamHive playback service.

The definitions below are a shallow embedding of the service's
segment-delivery pipeline: the Go string primitives the handler uses, the
path resolver (`extractBlobPath`, `blobBase`, `baseHLSPath`,
`allowedRendition`), the MD5-based cache-key generator, the circuit
breaker and the retrying blob fetcher (`downloadBlob`), the Redis-backed
cache, and the per-asset-class delivery handlers (`getSegment`,
`getVariant`, `getMaster`).  Byte strings are modelled as `List Nat`,
machine words as `Nat` reduced modulo `2 ^ 32`, and wall-clock time as a
`Nat` number of milliseconds.
-/

set_option autoImplicit false

namespace StreamHive

/-! Go standard-library string helpers (`strings.HasPrefix`,
`strings.HasSuffix`, `strings.TrimPrefix`, `strings.TrimSuffix`,
`strings.Contains`, `strings.SplitN` with limit 2), modelled on the
character lists underlying `String`. -/

/-- Boolean test that the first list is an initial segment of the second. -/
def listHasPref : List Char → List Char → Bool
  | [], _ => true
  | _ :: _, [] => false
  | p :: ps, c :: cs => decide (p = c) && listHasPref ps cs

/-- Go strings.HasPrefix. -/
def goHasPref (s t : String) : Bool := listHasPref t.data s.data

/-- Go strings.HasSuffix. -/
def goHasSuffix (s t : String) : Bool := listHasPref t.data.reverse s.data.reverse

/-- Go strings.TrimPrefix: drop the prefix when present, else return the string unchanged. -/
def goTrimPref (s t : String) : String :=
  if goHasPref s t then String.mk (s.data.drop t.data.length) else s

/-- Go strings.TrimSuffix: drop the suffix when present, else return the string unchanged. -/
def goTrimSuffix (s t : String) : String :=
  if goHasSuffix s t then String.mk (s.data.take (s.data.length - t.data.length)) else s

/-- Occurrence test for a substring, on character lists. -/
def listContainsSub (sub : List Char) : List Char → Bool
  | [] => listHasPref sub []
  | c :: cs => listHasPref sub (c :: cs) || listContainsSub sub cs

/-- Go strings.Contains. -/
def goContains (s sub : String) : Bool := listContainsSub sub.data s.data

/-- Split at the first occurrence of a separator, returning the pieces
before and after it; none when the separator does not occur.  This is the
behaviour of Go strings.SplitN with limit 2 for a non-empty separator. -/
def listSplitFirst (sep : List Char) : List Char → Option (List Char × List Char)
  | [] => if sep.isEmpty then some ([], []) else none
  | c :: cs =>
    if listHasPref sep (c :: cs) then some ([], (c :: cs).drop sep.length)
    else match listSplitFirst sep cs with
      | some (l, r) => some (c :: l, r)
      | none => none

/-! Path resolver, translated from internal/playback/handler.go. -/

/-- Translation of allowedRendition: a Go switch over the four rendition names. -/
def allowedRendition (r : String) : Bool :=
  if r = "1080p" then true
  else if r = "720p" then true
  else if r = "480p" then true
  else if r = "360p" then true
  else false

/-- Translation of baseHLSPath: strip the trailing "/master.m3u8". -/
def baseHLSPath (master : String) : String := goTrimSuffix master "/master.m3u8"

/-- Translation of extractBlobPath: for a full Azure URL take the part after
the host marker and strip the container prefix; for a relative URL strip a
leading slash. -/
def extractBlobPath (containerName url : String) : String :=
  if goContains url ".blob.core.windows.net/" then
    match listSplitFirst (String.data ".blob.core.windows.net/") url.data with
    | some (_, after) => goTrimPref (String.mk after) (containerName ++ "/")
    | none => goTrimPref url "/"
  else goTrimPref url "/"

/-- Translation of blobBase: extractBlobPath then strip "/master.m3u8". -/
def blobBase (containerName masterURL : String) : String :=
  goTrimSuffix (extractBlobPath containerName masterURL) "/master.m3u8"

end StreamHive

namespace StreamHive

/-! MD5, translated from crypto/md5 of the Go standard library as invoked
by CacheService.GenerateKey.  Words are Nat values kept below `2 ^ 32` by
reducing with `w32`; bytes are Nat values below 256. -/

/-- Reduce a Nat to a 32-bit word. -/
def w32 (n : Nat) : Nat := n % 4294967296

/-- Left rotation of a 32-bit word by s bits. -/
def rotl32 (x s : Nat) : Nat :=
  w32 (Nat.shiftLeft x s) ||| Nat.shiftRight (w32 x) (32 - s)

/-- Round function F of MD5. -/
def md5F (b c d : Nat) : Nat := (b &&& c) ||| (Nat.xor b 4294967295 &&& d)

/-- Round function G of MD5. -/
def md5G (b c d : Nat) : Nat := (d &&& b) ||| (Nat.xor d 4294967295 &&& c)

/-- Round function H of MD5. -/
def md5H (b c d : Nat) : Nat := Nat.xor (Nat.xor b c) d

/-- Round function I of MD5. -/
def md5I (b c d : Nat) : Nat := Nat.xor c (b ||| Nat.xor d 4294967295)

/-- The 64 sine-derived constants of MD5. -/
def md5K : List Nat :=
  [0xd76aa478, 0xe8c7b756, 0x242070db, 0xc1bdceee,
   0xf57c0faf, 0x4787c62a, 0xa8304613, 0xfd469501,
   0x698098d8, 0x8b44f7af, 0xffff5bb1, 0x895cd7be,
   0x6b901122, 0xfd987193, 0xa679438e, 0x49b40821,
   0xf61e2562, 0xc040b340, 0x265e5a51, 0xe9b6c7aa,
   0xd62f105d, 0x02441453, 0xd8a1e681, 0xe7d3fbc8,
   0x21e1cde6, 0xc33707d6, 0xf4d50d87, 0x455a14ed,
   0xa9e3e905, 0xfcefa3f8, 0x676f02d9, 0x8d2a4c8a,
   0xfffa3942, 0x8771f681, 0x6d9d6122, 0xfde5380c,
   0xa4beea44, 0x4bdecfa9, 0xf6bb4b60, 0xbebfbc70,
   0x289b7ec6, 0xeaa127fa, 0xd4ef3085, 0x04881d05,
   0xd9d4d039, 0xe6db99e5, 0x1fa27cf8, 0xc4ac5665,
   0xf4292244, 0x432aff97, 0xab9423a7, 0xfc93a039,
   0x655b59c3, 0x8f0ccc92, 0xffeff47d, 0x85845dd1,
   0x6fa87e4f, 0xfe2ce6e0, 0xa3014314, 0x4e0811a1,
   0xf7537e82, 0xbd3af235, 0x2ad7d2bb, 0xeb86d391]

/-- The per-round left-rotation amounts of MD5. -/
def md5S : List Nat :=
  [7, 12, 17, 22, 7, 12, 17, 22, 7, 12, 17, 22, 7, 12, 17, 22,
   5, 9, 14, 20, 5, 9, 14, 20, 5, 9, 14, 20, 5, 9, 14, 20,
   4, 11, 16, 23, 4, 11, 16, 23, 4, 11, 16, 23, 4, 11, 16, 23,
   6, 10, 15, 21, 6, 10, 15, 21, 6, 10, 15, 21, 6, 10, 15, 21]

/-- UTF-8 encoding of one character, as Go produces when converting a
string to a byte slice. -/
def utf8Char (c : Char) : List Nat :=
  let n := c.toNat
  if n < 128 then [n]
  else if n < 2048 then [192 + n / 64, 128 + n % 64]
  else if n < 65536 then [224 + n / 4096, 128 + n / 64 % 64, 128 + n % 64]
  else [240 + n / 262144, 128 + n / 4096 % 64, 128 + n / 64 % 64, 128 + n % 64]

/-- UTF-8 encoding of a whole string. -/
def utf8Bytes (s : String) : List Nat := (s.data.map utf8Char).flatten

/-- Little-endian 4-byte encoding of a 32-bit word. -/
def toLE4 (n : Nat) : List Nat := [n % 256, n / 256 % 256, n / 65536 % 256, n / 16777216 % 256]

/-- Little-endian 8-byte encoding of a 64-bit length. -/
def toLE8 (n : Nat) : List Nat :=
  [n % 256, n / 256 % 256, n / 65536 % 256, n / 16777216 % 256,
   n / 4294967296 % 256, n / 1099511627776 % 256,
   n / 281474976710656 % 256, n / 72057594037927936 % 256]

/-- MD5 padding: append the 0x80 marker, zero bytes up to 56 mod 64, then
the bit length as a little-endian 64-bit value. -/
def md5Pad (m : List Nat) : List Nat :=
  let len := m.length
  let z := (56 + 64 - (len + 1) % 64) % 64
  m ++ [128] ++ List.replicate z 0 ++ toLE8 (8 * len % 18446744073709551616)

/-- Cut a byte list into 64-byte blocks; the first argument is fuel that
bounds the number of blocks and makes the recursion structural. -/
def chunksAux : Nat → List Nat → List (List Nat)
  | 0, _ => []
  | _, [] => []
  | fuel + 1, c :: cs => (c :: cs).take 64 :: chunksAux fuel ((c :: cs).drop 64)

/-- Cut a byte list into 64-byte blocks. -/
def chunks64 (l : List Nat) : List (List Nat) := chunksAux l.length l

/-- Running state of the MD5 compression function. -/
structure MD5State where
  a : Nat
  b : Nat
  c : Nat
  d : Nat
deriving DecidableEq

/-- Word j of a 64-byte block, little-endian. -/
def blockWord (block : List Nat) (j : Nat) : Nat :=
  block.getD (4 * j) 0 + 256 * block.getD (4 * j + 1) 0 +
    65536 * block.getD (4 * j + 2) 0 + 16777216 * block.getD (4 * j + 3) 0

/-- One of the 64 MD5 operations. -/
def md5Step (block : List Nat) (st : MD5State) (i : Nat) : MD5State :=
  let f :=
    if i < 16 then md5F st.b st.c st.d
    else if i < 32 then md5G st.b st.c st.d
    else if i < 48 then md5H st.b st.c st.d
    else md5I st.b st.c st.d
  let g :=
    if i < 16 then i
    else if i < 32 then (5 * i + 1) % 16
    else if i < 48 then (3 * i + 5) % 16
    else 7 * i % 16
  let tmp := w32 (st.a + f + md5K.getD i 0 + blockWord block g)
  { a := st.d, b := w32 (st.b + rotl32 tmp (md5S.getD i 0)), c := st.b, d := st.c }

/-- Process one 64-byte block. -/
def md5Block (st : MD5State) (block : List Nat) : MD5State :=
  let r := (List.range 64).foldl (md5Step block) st
  { a := w32 (st.a + r.a), b := w32 (st.b + r.b), c := w32 (st.c + r.c), d := w32 (st.d + r.d) }

/-- The MD5 initialisation vector. -/
def md5Init : MD5State :=
  { a := 0x67452301, b := 0xefcdab89, c := 0x98badcfe, d := 0x10325476 }

/-- The 16-byte MD5 digest of a byte list. -/
def md5Bytes (m : List Nat) : List Nat :=
  let st := (chunks64 (md5Pad m)).foldl md5Block md5Init
  toLE4 st.a ++ toLE4 st.b ++ toLE4 st.c ++ toLE4 st.d

/-- Lower-case hexadecimal digit. -/
def hexDigitChar (n : Nat) : Char :=
  if n < 10 then Char.ofNat (48 + n) else Char.ofNat (87 + n)

/-- Two-character hexadecimal rendering of one byte, as Go fmt %x prints
each byte of a digest. -/
def byteHex (b : Nat) : List Char := [hexDigitChar (b / 16), hexDigitChar (b % 16)]

/-- Hexadecimal rendering of a byte list. -/
def bytesHex (bs : List Nat) : String := String.mk (bs.map byteHex).flatten

/-- The string CacheService.GenerateKey feeds to the digest:
fmt.Sprintf with the three components joined by colons. -/
def generateKeyInput (cls uploadID path : String) : String :=
  cls ++ ":" ++ uploadID ++ ":" ++ path

/-- Translation of CacheService.GenerateKey: the class joined by a colon
to the hexadecimal MD5 digest of the colon-joined triple. -/
def generateKey (cls uploadID path : String) : String :=
  cls ++ ":" ++ bytesHex (md5Bytes (utf8Bytes (generateKeyInput cls uploadID path)))

end StreamHive

namespace StreamHive

/-! Circuit breaker.  The handler builds a sony/gobreaker instance with a
configurable reset window (Timeout) and a ReadyToTrip that fires once
ConsecutiveFailures reaches a configurable threshold; the library itself
is not part of this repository. -/

/-- State of the circuit: the enum of the specification. -/
inductive CBState
  | closed
  | opened
  | halfOpen
deriving DecidableEq

/-- Modelled from the spec: the CircuitState of the sony/gobreaker
instance (library code not in src/), per sections 3 and 4.3 of the
specification: fields state, consecutiveFailures and openedAt, plus a flag
recording that the single half-open trial attempt is in flight ("Only one
trial attempt is permitted while half-open ... all but one rejected"). -/
structure Breaker where
  state : CBState
  consecutiveFailures : Nat
  openedAt : Nat
  probeInFlight : Bool
deriving DecidableEq

/-- A freshly constructed breaker: closed with no recorded failures. -/
def Breaker.init : Breaker :=
  { state := .closed, consecutiveFailures := 0, openedAt := 0, probeInFlight := false }

/-- Errors a fetch can surface: the breaker's fast-fail errors or the
error of the object-store attempt itself (modelled as a string). -/
inductive FetchErr
  | circuitOpen
  | tooManyRequests
  | storeErr (e : String)
deriving DecidableEq

/-- Modelled from the spec: lazy open-to-half-open transition once the
reset window has elapsed ("open -> (reset timeout elapsed) -> half-open"),
with the failure counter cleared for the new phase. -/
def resolveState (resetWindow now : Nat) (b : Breaker) : Breaker :=
  if b.state = .opened ∧ b.openedAt + resetWindow ≤ now then
    { state := .halfOpen, consecutiveFailures := 0, openedAt := b.openedAt,
      probeInFlight := false }
  else b

/-- Modelled from the spec: admission control of an attempt.  An open
circuit rejects immediately with CircuitOpen and no call is performed; a
half-open circuit admits exactly one trial attempt and rejects the rest;
a closed circuit admits every attempt. -/
def beforeRequest (resetWindow now : Nat) (b : Breaker) : Option FetchErr × Breaker :=
  let b' := resolveState resetWindow now b
  match b'.state with
  | .opened => (some .circuitOpen, b')
  | .halfOpen =>
    if b'.probeInFlight then (some .tooManyRequests, b')
    else (none, { b' with probeInFlight := true })
  | .closed => (none, b')

/-- Modelled from the spec: recording a success resets the
consecutive-failure count, and in half-open transitions the circuit to
closed. -/
def afterSuccess (b : Breaker) : Breaker :=
  match b.state with
  | .halfOpen =>
    { state := .closed, consecutiveFailures := 0, openedAt := b.openedAt,
      probeInFlight := false }
  | _ => { b with consecutiveFailures := 0 }

/-- Modelled from the spec: recording a failure increments the
consecutive-failure count; when it reaches the threshold the circuit
opens and openedAt is stamped; a failed half-open probe reopens the
circuit. -/
def afterFailure (threshold now : Nat) (b : Breaker) : Breaker :=
  match b.state with
  | .closed =>
    if threshold ≤ b.consecutiveFailures + 1 then
      { state := .opened, consecutiveFailures := 0, openedAt := now,
        probeInFlight := false }
    else { b with consecutiveFailures := b.consecutiveFailures + 1 }
  | .halfOpen =>
    { state := .opened, consecutiveFailures := 0, openedAt := now,
      probeInFlight := false }
  | .opened => b

/-- One breaker-guarded call (gobreaker Execute): admission check, then
the protected function, then the success or failure bookkeeping.  The
third component records whether the protected function actually ran. -/
def cbExecute (threshold resetWindow now : Nat) (b : Breaker)
    (fn : Except String (List Nat)) : Except FetchErr (List Nat) × Breaker × Bool :=
  match beforeRequest resetWindow now b with
  | (some e, b') => (.error e, b', false)
  | (none, b') =>
    match fn with
    | .ok v => (.ok v, afterSuccess b', true)
    | .error e => (.error (.storeErr e), afterFailure threshold now b', true)

/-! The retrying fetcher, translated from downloadBlob in
internal/playback/handler.go.  The attempt outcomes are supplied as a
function from the attempt index to the object-store result, and the time
at which attempt i runs is supplied as a function of i; sleeps are
recorded rather than performed. -/

deriving instance DecidableEq for Except

/-- Result of a downloadBlob call: the returned value or error, the
breaker afterwards, the backoff sleeps performed between attempts, and
how many object-store calls were actually made. -/
structure DlResult where
  result : Except FetchErr (List Nat)
  breaker : Breaker
  sleeps : List Nat
  storeCalls : Nat
deriving DecidableEq

/-- Translation of the retry loop body of downloadBlob: attempt index i,
remaining further iterations, current backoff, current breaker. -/
def dlGo (threshold resetWindow : Nat) (store : Nat → Except String (List Nat))
    (time : Nat → Nat) : Nat → Nat → Nat → Breaker → DlResult
  | i, remaining, backoff, b =>
    match cbExecute threshold resetWindow (time i) b (store i) with
    | (.ok data, b', called) =>
      { result := .ok data, breaker := b', sleeps := [],
        storeCalls := if called then 1 else 0 }
    | (.error e, b', called) =>
      match remaining with
      | 0 =>
        { result := .error e, breaker := b', sleeps := [],
          storeCalls := if called then 1 else 0 }
      | rem + 1 =>
        let next := dlGo threshold resetWindow store time (i + 1) rem
          (if backoff < 1500 then backoff * 2 else backoff) b'
        { result := next.result, breaker := next.breaker,
          sleeps := backoff :: next.sleeps,
          storeCalls := (if called then 1 else 0) + next.storeCalls }

/-- Translation of downloadBlob: up to retries further attempts after the
first, starting from a 200 ms backoff. -/
def downloadBlob (threshold resetWindow retries : Nat)
    (store : Nat → Except String (List Nat)) (time : Nat → Nat) (b : Breaker) : DlResult :=
  dlGo threshold resetWindow store time 0 retries 200 b

/-- The backoff intervals the loop sleeps through when every attempt
fails: the current backoff, then the tail after the doubling step of the
source (double only while still below 1500). -/
def backoffSeq : Nat → Nat → List Nat
  | _, 0 => []
  | backoff, rem + 1 => backoff :: backoffSeq (if backoff < 1500 then backoff * 2 else backoff) rem

end StreamHive

namespace StreamHive

/-! Cache store.  CacheService in internal/cache wraps a Redis client;
the client itself is not part of this repository, so the backend is a
TTL key/value byte store as the specification describes. -/

/-- Modelled from the spec: the Redis backend (go-redis client code not
in src/) as a TTL key/value byte store: each key maps to a value together
with its absolute expiry time. -/
structure CacheBackend where
  entries : String → Option (List Nat × Nat)

/-- Modelled from the spec: a SET with TTL stores the bytes under the key
with expiry now plus ttl, silently overwriting any earlier entry. -/
def backendSet (m : CacheBackend) (k : String) (v : List Nat) (ttl now : Nat) : CacheBackend :=
  ⟨fun key => if key = k then some (v, now + ttl) else m.entries key⟩

/-- Modelled from the spec: a GET returns the stored bytes while the
entry has not expired, and reports absence (redis.Nil) otherwise. -/
def backendGet (m : CacheBackend) (k : String) (now : Nat) : Option (List Nat) :=
  match m.entries k with
  | none => none
  | some (v, expiry) => if now < expiry then some v else none

/-- Translation of CacheService.Get over the backend model: absence is
the error-free miss outcome (nil, nil in the source); backend bytes are
returned unchanged. -/
def cacheServiceGet (m : CacheBackend) (k : String) (now : Nat) : Option (List Nat) :=
  backendGet m k now

/-- Translation of CacheService.Set over the backend model: store the
value under the configured process-wide TTL. -/
def cacheServiceSet (m : CacheBackend) (k : String) (v : List Nat) (ttl now : Nat) : CacheBackend :=
  backendSet m k v ttl now

/-! Delivery orchestrator, translated from the GetSegment, GetVariant and
GetMaster handlers of internal/playback/handler.go.  Database lookup,
cache backend and object store are supplied as oracle functions in an
environment; the observable side effects of a request are recorded as a
trace. -/

/-- The fields of the video descriptor the playback handlers read. -/
structure Video where
  uploadID : String
  userID : String
  hlsMasterURL : String
  thumbnailURL : String
deriving DecidableEq

/-- Observable side effects of one request, in order. -/
inductive Eff
  | dbLookup (id : String)
  | cacheGet (key : String) (failed : Bool)
  | fetchBlob (path : String)
  | cacheSet (key : String) (failed : Bool)
  | httpGet (url : String)
deriving DecidableEq

/-- Body of an HTTP response: textual (gin c.String) or binary (gin c.Data). -/
inductive Body
  | text (s : String)
  | bytes (b : List Nat)
deriving DecidableEq

/-- An HTTP response: status, content-type header if set, body. -/
structure HResp where
  status : Nat
  contentType : Option String
  body : Body
deriving DecidableEq

/-- Response of the plain HTTP client used on the public (no container
client) paths: status, content-type header, body. -/
structure HttpResp where
  status : Nat
  ctype : Option String
  body : List Nat
deriving DecidableEq

/-- Environment of a request: configuration and oracles for the
collaborators (whether the Azure container client was initialised, the
container name, whether the cache service was initialised, the cache
backend's reply and write outcome per key, the downloadBlob outcome per
path, and the plain HTTP client per URL). -/
structure Env where
  containerPresent : Bool
  containerName : String
  cachePresent : Bool
  cacheGetData : String → Option (List Nat)
  cacheGetFails : String → Bool
  cacheSetFails : String → Bool
  fetch : String → Except FetchErr (List Nat)
  httpResp : String → Except Unit HttpResp

/-- Content-type switch of GetSegment (lines 279 to 289 of the handler). -/
def segContentType (segment : String) : String :=
  if goHasSuffix segment ".m3u8" then "application/vnd.apple.mpegurl"
  else if goHasSuffix segment ".m4s" then "video/iso.segment"
  else if goHasSuffix segment ".ts" then "video/mp2t"
  else "application/octet-stream"

/-- Content-type derivation of proxyBinary when the upstream sent none. -/
def proxyContentType (url : String) : String :=
  if goHasSuffix url ".m3u8" then "application/vnd.apple.mpegurl"
  else if goHasSuffix url ".m4s" then "video/iso.segment"
  else if goHasSuffix url ".ts" then "video/mp2t"
  else "application/octet-stream"

/-- Translation of proxyBinary: forward the upstream status and body,
with the upstream content-type or one derived from the URL. -/
def proxyBinary (env : Env) (url : String) : HResp × List Eff :=
  match env.httpResp url with
  | .error _ => ({ status := 502, contentType := none, body := .text "upstream error" }, [.httpGet url])
  | .ok r =>
    ({ status := r.status,
       contentType := some (match r.ctype with | some ct => ct | none => proxyContentType url),
       body := .bytes r.body }, [.httpGet url])

/-- Translation of proxyM3U8: forward the upstream status and body with
the playlist content-type. -/
def proxyM3U8 (env : Env) (url : String) : HResp × List Eff :=
  match env.httpResp url with
  | .error _ => ({ status := 502, contentType := none, body := .text "upstream error" }, [.httpGet url])
  | .ok r =>
    ({ status := r.status, contentType := some "application/vnd.apple.mpegurl",
       body := .bytes r.body }, [.httpGet url])

/-- Translation of the GetSegment handler: validation, descriptor lookup,
then on the private path the cache-aside fetch of the resolved blob path,
and on the public path a proxied origin read. -/
def getSegment (env : Env) (uploadID rendition segment : String) (db : Option Video) :
    HResp × List Eff :=
  if ¬allowedRendition rendition = true ∨
      (¬goHasSuffix segment ".ts" = true ∧ ¬goHasSuffix segment ".m4s" = true) then
    ({ status := 400, contentType := none, body := .text "invalid segment" }, [])
  else
    match db with
    | none => ({ status := 404, contentType := none, body := .text "not found" }, [.dbLookup uploadID])
    | some v =>
      if env.containerPresent then
        let base := blobBase env.containerName v.hlsMasterURL
        let blobPath := base ++ "/" ++ rendition ++ "/" ++ segment
        let cacheKey := generateKey "segment" uploadID blobPath
        let getAttempt : Option (List Nat) × List Eff :=
          if env.cachePresent then
            (env.cacheGetData cacheKey, [.cacheGet cacheKey (env.cacheGetFails cacheKey)])
          else (none, [])
        match getAttempt with
        | (some data, effs) =>
          ({ status := 200, contentType := some (segContentType segment), body := .bytes data },
            .dbLookup uploadID :: effs)
        | (none, effs) =>
          match env.fetch blobPath with
          | .error _ =>
            ({ status := 502, contentType := none, body := .text "blob error" },
              .dbLookup uploadID :: effs ++ [.fetchBlob blobPath])
          | .ok data =>
            let setEffs : List Eff :=
              if env.cachePresent then [.cacheSet cacheKey (env.cacheSetFails cacheKey)] else []
            ({ status := 200, contentType := some (segContentType segment), body := .bytes data },
              .dbLookup uploadID :: effs ++ [.fetchBlob blobPath] ++ setEffs)
      else
        let base := baseHLSPath v.hlsMasterURL
        let url := base ++ "/" ++ rendition ++ "/" ++ segment
        let (resp, effs) := proxyBinary env url
        (resp, .dbLookup uploadID :: effs)

/-- Translation of the GetVariant handler. -/
def getVariant (env : Env) (uploadID rendition : String) (db : Option Video) :
    HResp × List Eff :=
  if ¬allowedRendition rendition = true then
    ({ status := 400, contentType := none, body := .text "invalid rendition" }, [])
  else
    match db with
    | none => ({ status := 404, contentType := none, body := .text "not found" }, [.dbLookup uploadID])
    | some v =>
      if env.containerPresent then
        let base := blobBase env.containerName v.hlsMasterURL
        let blobPath := base ++ "/" ++ rendition ++ "/index.m3u8"
        match env.fetch blobPath with
        | .error _ =>
          ({ status := 502, contentType := none, body := .text "blob error" },
            [.dbLookup uploadID, .fetchBlob blobPath])
        | .ok data =>
          ({ status := 200, contentType := some "application/vnd.apple.mpegurl",
             body := .bytes data }, [.dbLookup uploadID, .fetchBlob blobPath])
      else
        let url := baseHLSPath v.hlsMasterURL ++ "/" ++ rendition ++ "/index.m3u8"
        let (resp, effs) := proxyM3U8 env url
        (resp, .dbLookup uploadID :: effs)

/-- Translation of the GetMaster handler.  The regex-based rewrite of the
rendition lines operates on already fetched bytes and is supplied as a
function parameter (it is external to the fetch and cache contract, per
the specification). -/
def getMaster (env : Env) (rewrite : List Nat → List Nat) (uploadID : String)
    (db : Option Video) : HResp × List Eff :=
  match db with
  | none => ({ status := 404, contentType := none, body := .text "not found" }, [.dbLookup uploadID])
  | some v =>
    if v.hlsMasterURL = "" then
      ({ status := 400, contentType := none, body := .text "master not ready" }, [.dbLookup uploadID])
    else if ¬env.containerPresent then
      match env.httpResp v.hlsMasterURL with
      | .error _ =>
        ({ status := 502, contentType := none, body := .text "upstream error" },
          [.dbLookup uploadID, .httpGet v.hlsMasterURL])
      | .ok r =>
        ({ status := 200, contentType := some "application/vnd.apple.mpegurl",
           body := .bytes (rewrite r.body) },
          [.dbLookup uploadID, .httpGet v.hlsMasterURL])
    else
      let blobPath := extractBlobPath env.containerName v.hlsMasterURL
      match env.fetch blobPath with
      | .error _ =>
        ({ status := 502, contentType := none, body := .text "blob error" },
          [.dbLookup uploadID, .fetchBlob blobPath])
      | .ok data =>
        ({ status := 200, contentType := some "application/vnd.apple.mpegurl",
           body := .bytes (rewrite data) },
          [.dbLookup uploadID, .fetchBlob blobPath])

end StreamHive

namespace StreamHive

theorem listHasPref_iff (p : List Char) : ∀ s : List Char,
    listHasPref p s = true ↔ ∃ r, s = p ++ r := by
  induction p with
  | nil => intro s; simp [listHasPref]
  | cons a ps ih =>
    intro s
    cases s with
    | nil => simp [listHasPref]
    | cons c cs =>
      simp only [listHasPref, Bool.and_eq_true, decide_eq_true_eq, ih, List.cons_append,
        List.cons.injEq]
      constructor
      · rintro ⟨h1, r, h2⟩; exact ⟨r, h1.symm, h2⟩
      · rintro ⟨r, h1, h2⟩; exact ⟨h1.symm, r, h2⟩

theorem goHasSuffix_iff (s t : String) :
    goHasSuffix s t = true ↔ ∃ p : String, s = p ++ t := by
  unfold goHasSuffix
  rw [listHasPref_iff]
  constructor
  · rintro ⟨r, h⟩
    refine ⟨String.mk r.reverse, String.ext ?_⟩
    have := congrArg List.reverse h
    simpa [String.data_append] using this
  · rintro ⟨p, rfl⟩
    exact ⟨p.data.reverse, by simp [String.data_append]⟩

theorem colon_join_inj : ∀ (a1 : List Char) (a2 : List Char) (r1 r2 : List Char),
    ':' ∉ a1 → ':' ∉ a2 → a1 ++ ':' :: r1 = a2 ++ ':' :: r2 → a1 = a2 ∧ r1 = r2 := by
  intro a1
  induction a1 with
  | nil =>
    intro a2 r1 r2 _ h2 heq
    cases a2 with
    | nil => simpa using heq
    | cons b bs =>
      exfalso
      simp only [List.nil_append, List.cons_append, List.cons.injEq] at heq
      exact h2 (heq.1 ▸ List.mem_cons_self b bs)
  | cons a as ih =>
    intro a2 r1 r2 h1 h2 heq
    cases a2 with
    | nil =>
      exfalso
      simp only [List.nil_append, List.cons_append, List.cons.injEq] at heq
      exact h1 (heq.1 ▸ List.mem_cons_self a as)
    | cons b bs =>
      simp only [List.cons_append, List.cons.injEq] at heq
      obtain ⟨hab, htail⟩ := heq
      have := ih bs r1 r2 (fun hm => h1 (List.mem_cons_of_mem a hm))
        (fun hm => h2 (List.mem_cons_of_mem b hm)) htail
      exact ⟨by rw [hab, this.1], this.2⟩

theorem generateKeyInput_inj (cls1 id1 p1 cls2 id2 p2 : String)
    (hc1 : ':' ∉ cls1.data) (hc2 : ':' ∉ cls2.data)
    (hi1 : ':' ∉ id1.data) (hi2 : ':' ∉ id2.data)
    (h : generateKeyInput cls1 id1 p1 = generateKeyInput cls2 id2 p2) :
    cls1 = cls2 ∧ id1 = id2 ∧ p1 = p2 := by
  unfold generateKeyInput at h
  have hd := congrArg String.data h
  simp only [String.data_append] at hd
  have hd' : cls1.data ++ ':' :: (id1.data ++ ':' :: p1.data) =
      cls2.data ++ ':' :: (id2.data ++ ':' :: p2.data) := by
    simpa [List.append_assoc] using hd
  obtain ⟨e1, e2⟩ := colon_join_inj cls1.data cls2.data _ _ hc1 hc2 hd'
  obtain ⟨e3, e4⟩ := colon_join_inj id1.data id2.data _ _ hi1 hi2 e2
  exact ⟨String.ext e1, String.ext e3, String.ext e4⟩

theorem md5Bytes_length (m : List Nat) : (md5Bytes m).length = 16 := by
  simp [md5Bytes, toLE4]

theorem bytesHex_length (bs : List Nat) : (bytesHex bs).length = 2 * bs.length := by
  unfold bytesHex
  show (String.mk (bs.map byteHex).flatten).length = 2 * bs.length
  have : ∀ l : List Nat, (l.map byteHex).flatten.length = 2 * l.length := by
    intro l
    induction l with
    | nil => simp
    | cons x xs ih => simp [byteHex, ih]; omega
  simpa [String.length] using this bs

end StreamHive

namespace StreamHive

theorem cbExecute_opened (th T now cf oa : Nat) (pf : Bool) (fn : Except String (List Nat))
    (hnow : now < oa + T) :
    cbExecute th T now ⟨.opened, cf, oa, pf⟩ fn =
      (.error .circuitOpen, ⟨.opened, cf, oa, pf⟩, false) := by
  unfold cbExecute beforeRequest resolveState
  simp only [if_neg, reduceCtorEq]
  rw [if_neg (by rintro ⟨-, h⟩; omega)]

theorem cbExecute_closed_fail (th T now cf oa : Nat) (pf : Bool) (e : String)
    (hth : cf + 1 < th) :
    cbExecute th T now ⟨.closed, cf, oa, pf⟩ (.error e) =
      (.error (.storeErr e), ⟨.closed, cf + 1, oa, pf⟩, true) := by
  unfold cbExecute beforeRequest afterFailure resolveState
  rw [if_neg (by rintro ⟨h, -⟩; exact CBState.noConfusion h)]
  simp only []
  rw [if_neg (by omega)]

theorem cbExecute_closed_trip (th T now cf oa : Nat) (pf : Bool) (e : String)
    (hth : th ≤ cf + 1) :
    cbExecute th T now ⟨.closed, cf, oa, pf⟩ (.error e) =
      (.error (.storeErr e), ⟨.opened, 0, now, false⟩, true) := by
  unfold cbExecute beforeRequest afterFailure resolveState
  rw [if_neg (by rintro ⟨h, -⟩; exact CBState.noConfusion h)]
  simp only []
  rw [if_pos (by omega)]

theorem cbExecute_closed_ok (th T now cf oa : Nat) (pf : Bool) (v : List Nat) :
    cbExecute th T now ⟨.closed, cf, oa, pf⟩ (.ok v) =
      (.ok v, ⟨.closed, 0, oa, pf⟩, true) := by
  unfold cbExecute beforeRequest afterSuccess resolveState
  rw [if_neg (by rintro ⟨h, -⟩; exact CBState.noConfusion h)]

end StreamHive

namespace StreamHive

theorem dlGo_opened (th T : Nat) (store : Nat → Except String (List Nat)) (time : Nat → Nat)
    (cf oa : Nat) (pf : Bool) :
    ∀ (rem i backoff : Nat),
    (∀ j, i ≤ j → j ≤ i + rem → time j < oa + T) →
    dlGo th T store time i rem backoff ⟨.opened, cf, oa, pf⟩ =
      { result := .error .circuitOpen, breaker := ⟨.opened, cf, oa, pf⟩,
        sleeps := backoffSeq backoff rem, storeCalls := 0 } := by
  intro rem
  induction rem with
  | zero =>
    intro i backoff htime
    unfold dlGo
    rw [cbExecute_opened th T (time i) cf oa pf (store i) (htime i le_rfl (by omega))]
    simp [backoffSeq]
  | succ rem ih =>
    intro i backoff htime
    unfold dlGo
    rw [cbExecute_opened th T (time i) cf oa pf (store i) (htime i le_rfl (by omega))]
    simp only []
    rw [ih (i + 1) (if backoff < 1500 then backoff * 2 else backoff)
      (fun j hj1 hj2 => htime j (by omega) (by omega))]
    simp [backoffSeq]

theorem dlGo_closed_fail (th T : Nat) (es : Nat → String) (time : Nat → Nat) :
    ∀ (rem i backoff cf oa : Nat) (pf : Bool), cf + rem + 1 < th →
    dlGo th T (fun j => .error (es j)) time i rem backoff ⟨.closed, cf, oa, pf⟩ =
      { result := .error (.storeErr (es (i + rem))),
        breaker := ⟨.closed, cf + rem + 1, oa, pf⟩,
        sleeps := backoffSeq backoff rem, storeCalls := rem + 1 } := by
  intro rem
  induction rem with
  | zero =>
    intro i backoff cf oa pf h
    unfold dlGo
    rw [cbExecute_closed_fail th T (time i) cf oa pf (es i) (by omega)]
    simp [backoffSeq]
  | succ rem ih =>
    intro i backoff cf oa pf h
    unfold dlGo
    rw [cbExecute_closed_fail th T (time i) cf oa pf (es i) (by omega)]
    simp only []
    rw [ih (i + 1) (if backoff < 1500 then backoff * 2 else backoff) (cf + 1) oa pf (by omega)]
    have h1 : i + 1 + rem = i + (rem + 1) := by omega
    have h2 : cf + 1 + rem + 1 = cf + (rem + 1) + 1 := by omega
    simp [backoffSeq, h1, h2]
    omega

theorem dlGo_closed_trip (th T : Nat) (es : Nat → String) (t : Nat) (hT : 0 < T) :
    ∀ (rem i backoff cf oa : Nat) (pf : Bool), cf < th → th ≤ cf + rem + 1 →
    ((dlGo th T (fun j => .error (es j)) (fun _ => t) i rem backoff ⟨.closed, cf, oa, pf⟩).breaker.state
        = .opened ∧
      (dlGo th T (fun j => .error (es j)) (fun _ => t) i rem backoff ⟨.closed, cf, oa, pf⟩).storeCalls
        = th - cf) := by
  intro rem
  induction rem with
  | zero =>
    intro i backoff cf oa pf hlt hge
    unfold dlGo
    rw [cbExecute_closed_trip th T t cf oa pf (es i) (by omega)]
    constructor
    · rfl
    · show 1 = th - cf
      omega
  | succ rem ih =>
    intro i backoff cf oa pf hlt hge
    unfold dlGo
    by_cases htr : th ≤ cf + 1
    · rw [cbExecute_closed_trip th T t cf oa pf (es i) htr]
      simp only []
      rw [dlGo_opened th T _ _ 0 t false rem (i + 1)
        (if backoff < 1500 then backoff * 2 else backoff) (fun j _ _ => by omega)]
      constructor
      · rfl
      · show 1 + 0 = th - cf
        omega
    · rw [cbExecute_closed_fail th T t cf oa pf (es i) (by omega)]
      simp only []
      obtain ⟨hs, hc⟩ := ih (i + 1) (if backoff < 1500 then backoff * 2 else backoff)
        (cf + 1) oa pf (by omega) (by omega)
      refine ⟨hs, ?_⟩
      show 1 + _ = th - cf
      rw [hc]
      omega

theorem dlGo_storeCalls_le (th T : Nat) (store : Nat → Except String (List Nat))
    (time : Nat → Nat) :
    ∀ (rem i backoff : Nat) (b : Breaker),
    (dlGo th T store time i rem backoff b).storeCalls ≤ rem + 1 := by
  intro rem
  induction rem with
  | zero =>
    intro i backoff b
    unfold dlGo
    rcases hcb : cbExecute th T (time i) b (store i) with ⟨res, b', called⟩
    cases res <;> simp only [] <;> cases called <;> simp
  | succ rem ih =>
    intro i backoff b
    unfold dlGo
    rcases hcb : cbExecute th T (time i) b (store i) with ⟨res, b', called⟩
    cases res with
    | ok v => cases called <;> simp
    | error e =>
      simp only []
      have := ih (i + 1) (if backoff < 1500 then backoff * 2 else backoff) b'
      cases called <;> simp <;> omega

end StreamHive

namespace StreamHive

theorem backoffSeq_min : ∀ (n k : Nat),
    backoffSeq (min (200 * 2 ^ k) 1600) n =
      (List.range n).map (fun j => min (200 * 2 ^ (k + j)) 1600) := by
  intro n
  induction n with
  | zero => intro k; simp [backoffSeq]
  | succ n ih =>
    intro k
    have hstep : (if min (200 * 2 ^ k) 1600 < 1500 then min (200 * 2 ^ k) 1600 * 2
        else min (200 * 2 ^ k) 1600) = min (200 * 2 ^ (k + 1)) 1600 := by
      match k with
      | 0 => decide
      | 1 => decide
      | 2 => decide
      | 3 => decide
      | k + 4 =>
        have h1 : 1600 ≤ 200 * 2 ^ (k + 4) := by
          have : 2 ^ 3 ≤ 2 ^ (k + 3) := Nat.pow_le_pow_right (by omega) (by omega)
          calc 1600 = 200 * 2 ^ 3 := by norm_num
          _ ≤ 200 * 2 ^ (k + 3) := by omega
          _ ≤ 200 * 2 ^ (k + 4) := by
              have : (2 : Nat) ^ (k + 3) ≤ 2 ^ (k + 4) := Nat.pow_le_pow_right (by omega) (by omega)
              omega
        have h2 : 1600 ≤ 200 * 2 ^ (k + 4 + 1) := by
          have : (2 : Nat) ^ (k + 4) ≤ 2 ^ (k + 4 + 1) := Nat.pow_le_pow_right (by omega) (by omega)
          omega
        rw [Nat.min_eq_right h1, Nat.min_eq_right h2]
        norm_num
    unfold backoffSeq
    rw [hstep, ih (k + 1), List.range_succ_eq_map]
    simp only [List.map_cons, List.map_map]
    refine List.cons_eq_cons.mpr ⟨by simp, ?_⟩
    apply List.map_congr_left
    intro j _
    simp only [Function.comp, Nat.succ_eq_add_one]
    have h : k + 1 + j = k + (j + 1) := by omega
    rw [h]

theorem backoffSeq_200 (n : Nat) :
    backoffSeq 200 n = (List.range n).map (fun j => min (200 * 2 ^ j) 1600) := by
  have h := backoffSeq_min n 0
  simpa using h

end StreamHive

namespace StreamHive

theorem downloadBlob_zero_closed_fail (th T t cf oa : Nat) (pf : Bool) (e : String)
    (hth : cf + 1 < th) :
    downloadBlob th T 0 (fun _ => .error e) (fun _ => t) ⟨.closed, cf, oa, pf⟩ =
      { result := .error (.storeErr e), breaker := ⟨.closed, cf + 1, oa, pf⟩,
        sleeps := [], storeCalls := 1 } := by
  unfold downloadBlob dlGo
  rw [cbExecute_closed_fail th T t cf oa pf e hth]
  simp

theorem downloadBlob_zero_closed_trip (th T t cf oa : Nat) (pf : Bool) (e : String)
    (hth : th ≤ cf + 1) :
    downloadBlob th T 0 (fun _ => .error e) (fun _ => t) ⟨.closed, cf, oa, pf⟩ =
      { result := .error (.storeErr e), breaker := ⟨.opened, 0, t, false⟩,
        sleeps := [], storeCalls := 1 } := by
  unfold downloadBlob dlGo
  rw [cbExecute_closed_trip th T t cf oa pf e hth]
  simp

/-- A sequence of k single-attempt downloadBlob calls (retries zero)
against an object store that fails every time, all at time t: the
resulting breaker after the k-th call. -/
def iterFailDownloads (th T t : Nat) : Nat → Breaker → Breaker
  | 0, b => b
  | k + 1, b =>
    (downloadBlob th T 0 (fun _ => .error "upstream failure") (fun _ => t)
      (iterFailDownloads th T t k b)).breaker

theorem iterFailDownloads_closed (th T t : Nat) :
    ∀ k, k < th → iterFailDownloads th T t k Breaker.init =
      ⟨.closed, k, 0, false⟩ := by
  intro k
  induction k with
  | zero => intro _; rfl
  | succ k ih =>
    intro hk
    unfold iterFailDownloads
    rw [ih (by omega), downloadBlob_zero_closed_fail th T t k 0 false _ (by omega)]

theorem iterFailDownloads_trip (th T t : Nat) (hth : 0 < th) :
    iterFailDownloads th T t th Breaker.init = ⟨.opened, 0, t, false⟩ := by
  obtain ⟨m, rfl⟩ : ∃ m, th = m + 1 := ⟨th - 1, by omega⟩
  unfold iterFailDownloads
  rw [iterFailDownloads_closed (m + 1) T t m (by omega),
    downloadBlob_zero_closed_trip (m + 1) T t m 0 false _ (by omega)]

end StreamHive

namespace StreamHive

/-- Claim C1: with configured failure threshold th and reset window T,
after th consecutive failed fetch attempts the circuit is open; the next
attempt before the reset window elapses fails with CircuitOpen, making no
object-store call and sleeping no backoff; once the reset window has
elapsed, admission control admits exactly one subsequent attempt as the
half-open probe and rejects any further attempt arriving while that probe
is in flight. -/
theorem claim_C1_breaker_trips_and_half_open_probe
    (th T t tNext tProbe : Nat) (hth : 0 < th)
    (hNext : tNext < t + T) (hProbe : t + T ≤ tProbe) :
    iterFailDownloads th T t th Breaker.init = ⟨.opened, 0, t, false⟩
    ∧ downloadBlob th T 0 (fun _ => .error "upstream failure") (fun _ => tNext)
        ⟨.opened, 0, t, false⟩ =
      { result := .error .circuitOpen, breaker := ⟨.opened, 0, t, false⟩,
        sleeps := [], storeCalls := 0 }
    ∧ (beforeRequest T tProbe ⟨.opened, 0, t, false⟩).1 = none
    ∧ (beforeRequest T tProbe ⟨.opened, 0, t, false⟩).2 = ⟨.halfOpen, 0, t, true⟩
    ∧ (∀ t2 : Nat, (beforeRequest T t2 ⟨.halfOpen, 0, t, true⟩).1 = some .tooManyRequests) := by
  refine ⟨iterFailDownloads_trip th T t hth, ?_, ?_, ?_, ?_⟩
  · unfold downloadBlob
    rw [dlGo_opened th T _ _ 0 t false 0 0 200 (fun j h1 h2 => by omega)]
    simp [backoffSeq]
  · unfold beforeRequest resolveState
    rw [if_pos ⟨rfl, hProbe⟩]
    rfl
  · unfold beforeRequest resolveState
    rw [if_pos ⟨rfl, hProbe⟩]
    rfl
  · intro t2
    unfold beforeRequest resolveState
    rw [if_neg (by rintro ⟨h, -⟩; exact CBState.noConfusion h)]
    rfl

/-- Witness for claim C1 at threshold 2, reset window 1000 ms, failures at
time 0, a rejected attempt at time 500 and the probe at time 1200, with a
second caller rejected at time 1300. -/
theorem claim_C1_witness :
    iterFailDownloads 2 1000 0 2 Breaker.init = ⟨.opened, 0, 0, false⟩
    ∧ downloadBlob 2 1000 0 (fun _ => .error "upstream failure") (fun _ => 500)
        ⟨.opened, 0, 0, false⟩ =
      { result := .error .circuitOpen, breaker := ⟨.opened, 0, 0, false⟩,
        sleeps := [], storeCalls := 0 }
    ∧ (beforeRequest 1000 1200 ⟨.opened, 0, 0, false⟩).1 = none
    ∧ (beforeRequest 1000 1200 ⟨.opened, 0, 0, false⟩).2 = ⟨.halfOpen, 0, 0, true⟩
    ∧ (beforeRequest 1000 1300 ⟨.halfOpen, 0, 0, true⟩).1 = some .tooManyRequests := by
  have h := claim_C1_breaker_trips_and_half_open_probe 2 1000 0 500 1200
    (by decide) (by decide) (by decide)
  exact ⟨h.1, h.2.1, h.2.2.1, h.2.2.2.1, h.2.2.2.2 1300⟩

/-- Counterexample to claim C2: under the default configuration
(threshold 5, reset window 10000 ms, retries 2), a fetch entered while
the circuit is open and unexpired does fail with CircuitOpen and makes no
object-store call, but it first consumes backoff sleeps of 200 ms and
400 ms, so it neither fails immediately nor avoids consuming backoff. -/
theorem claim_C2_counterexample :
    (downloadBlob 5 10000 2 (fun _ => .error "unreachable") (fun _ => 10)
        ⟨.opened, 0, 0, false⟩).result = .error .circuitOpen
    ∧ (downloadBlob 5 10000 2 (fun _ => .error "unreachable") (fun _ => 10)
        ⟨.opened, 0, 0, false⟩).storeCalls = 0
    ∧ (downloadBlob 5 10000 2 (fun _ => .error "unreachable") (fun _ => 10)
        ⟨.opened, 0, 0, false⟩).sleeps = [200, 400] := by decide

/-- Claim C2 as amended: a fetch invoked while the circuit is open, with
every attempt falling before the reset window expires, returns
CircuitOpen and makes no object-store call, but the retry loop still runs
and sleeps the usual backoff sequence between its rejected attempts
(one sleep per remaining retry) before returning. -/
theorem claim_C2_open_circuit_fast_fail_per_attempt (th T retries cf oa : Nat) (pf : Bool)
    (store : Nat → Except String (List Nat)) (time : Nat → Nat)
    (htime : ∀ j, j ≤ retries → time j < oa + T) :
    downloadBlob th T retries store time ⟨.opened, cf, oa, pf⟩ =
      { result := .error .circuitOpen, breaker := ⟨.opened, cf, oa, pf⟩,
        sleeps := backoffSeq 200 retries, storeCalls := 0 } := by
  unfold downloadBlob
  exact dlGo_opened th T store time cf oa pf retries 0 200 (fun j h1 h2 => htime j (by omega))

/-- Witness for the amended claim C2 at threshold 5, reset window
10000 ms, one retry, attempts at time 5 against a circuit opened at
time 0. -/
theorem claim_C2_witness :
    downloadBlob 5 10000 1 (fun _ => .error "x") (fun _ => 5) ⟨.opened, 0, 0, false⟩ =
      { result := .error .circuitOpen, breaker := ⟨.opened, 0, 0, false⟩,
        sleeps := [200], storeCalls := 0 } := by
  have h := claim_C2_open_circuit_fast_fail_per_attempt 5 10000 1 0 0 false
    (fun _ => .error "x") (fun _ => 5) (fun j hj => by show (5 : Nat) < 0 + 10000; omega)
  simpa [backoffSeq] using h

/-- Counterexample to claim C3: the backoff bounds are not configured
anywhere, and with retries 4 against an always-failing store the sleeps
are 200, 400, 800, 1600 ms: the fourth interval exceeds the 1500 ms
ceiling constant of the source, so the intervals are not capped at that
ceiling. -/
theorem claim_C3_counterexample :
    (downloadBlob 100 10000 4 (fun _ => .error "boom") (fun _ => 0) Breaker.init).sleeps
      = [200, 400, 800, 1600]
    ∧ ((downloadBlob 100 10000 4 (fun _ => .error "boom") (fun _ => 0)
        Breaker.init).sleeps.all (fun s => decide (s ≤ 1500))) = false := by decide

/-- Claim C3 as amended: a fetch makes at most r + 1 object-store
attempts for any configuration and breaker state; against an
always-failing store, starting from a fresh breaker whose threshold is
not reached, it makes exactly r + 1 attempts, sleeps intervals of
min(200 * 2 ^ i, 1600) ms between them (the base 200 ms and the cutoff
1500 ms are hardcoded, and doubling stops only after an interval reaches
1500 ms, so the effective cap is 1600 ms), and returns the last observed
error as the upstream failure. -/
theorem claim_C3_bounded_retry_and_backoff (th T r : Nat) (es : Nat → String)
    (time : Nat → Nat) (h : r + 1 < th) :
    (downloadBlob th T r (fun j => .error (es j)) time Breaker.init).result
        = .error (.storeErr (es r))
    ∧ (downloadBlob th T r (fun j => .error (es j)) time Breaker.init).storeCalls = r + 1
    ∧ (downloadBlob th T r (fun j => .error (es j)) time Breaker.init).sleeps
        = (List.range r).map (fun j => min (200 * 2 ^ j) 1600)
    ∧ ∀ (th' T' r' : Nat) (store : Nat → Except String (List Nat)) (time' : Nat → Nat)
        (b : Breaker), (downloadBlob th' T' r' store time' b).storeCalls ≤ r' + 1 := by
  have hd := dlGo_closed_fail th T es time r 0 200 0 0 false (by omega)
  have hinit : Breaker.init = (⟨.closed, 0, 0, false⟩ : Breaker) := rfl
  unfold downloadBlob
  rw [hinit, hd]
  refine ⟨by simp, by simp, by simp [backoffSeq_200], ?_⟩
  intro th' T' r' store time' b
  exact dlGo_storeCalls_le th' T' store time' r' 0 200 b

/-- Witness for the amended claim C3 at threshold 5 and retries 2. -/
theorem claim_C3_witness :
    (downloadBlob 5 10000 2 (fun _ => .error "boom") (fun _ => 0) Breaker.init).result
      = .error (.storeErr "boom")
    ∧ (downloadBlob 5 10000 2 (fun _ => .error "boom") (fun _ => 0) Breaker.init).storeCalls = 3
    ∧ (downloadBlob 5 10000 2 (fun _ => .error "boom") (fun _ => 0) Breaker.init).sleeps
      = [200, 400]
    ∧ (downloadBlob 7 1 9 (fun _ => .ok [1]) (fun _ => 0) Breaker.init).storeCalls ≤ 10 := by
  have h := claim_C3_bounded_retry_and_backoff 5 10000 2 (fun _ => "boom") (fun _ => 0)
    (by omega)
  exact ⟨h.1, h.2.1, by rw [h.2.2.1]; decide,
    h.2.2.2 7 1 9 (fun _ => .ok [1]) (fun _ => 0) Breaker.init⟩

/-- Claim C10: the consecutive-failure counter advances once per inner
object-store attempt, not once per downloadBlob call: against an
always-failing store a single call with retries r leaves the counter at
r + 1 when that stays below the threshold, and when r + 1 reaches the
threshold the inner retries alone trip the breaker mid-call, after
exactly threshold many object-store attempts. -/
theorem claim_C10_counter_advances_per_inner_attempt (th T r t : Nat) (es : Nat → String)
    (hth : 0 < th) (hT : 0 < T) :
    (r + 1 < th →
      (downloadBlob th T r (fun j => .error (es j)) (fun _ => t) Breaker.init).breaker
          = ⟨.closed, r + 1, 0, false⟩
      ∧ (downloadBlob th T r (fun j => .error (es j)) (fun _ => t) Breaker.init).storeCalls
          = r + 1)
    ∧ (th ≤ r + 1 →
      (downloadBlob th T r (fun j => .error (es j)) (fun _ => t) Breaker.init).breaker.state
          = .opened
      ∧ (downloadBlob th T r (fun j => .error (es j)) (fun _ => t) Breaker.init).storeCalls
          = th) := by
  have hinit : Breaker.init = (⟨.closed, 0, 0, false⟩ : Breaker) := rfl
  constructor
  · intro h
    have hd := dlGo_closed_fail th T es (fun _ => t) r 0 200 0 0 false (by omega)
    unfold downloadBlob
    rw [hinit, hd]
    exact ⟨by simp, rfl⟩
  · intro h
    have hd := dlGo_closed_trip th T es t hT r 0 200 0 0 false (by omega) (by omega)
    unfold downloadBlob
    rw [hinit]
    exact ⟨hd.1, by rw [hd.2]; omega⟩

/-- Witness for claim C10: retries 1 below threshold 5 leaves the counter
at 2; retries 4 with threshold 3 trips the breaker after exactly 3
attempts. -/
theorem claim_C10_witness :
    (downloadBlob 5 10000 1 (fun _ => .error "x") (fun _ => 0) Breaker.init).breaker
        = ⟨.closed, 2, 0, false⟩
    ∧ (downloadBlob 3 10000 4 (fun _ => .error "x") (fun _ => 0) Breaker.init).breaker.state
        = .opened
    ∧ (downloadBlob 3 10000 4 (fun _ => .error "x") (fun _ => 0) Breaker.init).storeCalls
        = 3 := by
  have h1 := (claim_C10_counter_advances_per_inner_attempt 5 10000 1 0 (fun _ => "x")
    (by decide) (by decide)).1 (by decide)
  have h2 := (claim_C10_counter_advances_per_inner_attempt 3 10000 4 0 (fun _ => "x")
    (by decide) (by decide)).2 (by decide)
  exact ⟨h1.1, h2.1, h2.2⟩

end StreamHive

namespace StreamHive

theorem allowedRendition_iff (r : String) :
    allowedRendition r = true ↔
      r = "1080p" ∨ r = "720p" ∨ r = "480p" ∨ r = "360p" := by
  unfold allowedRendition
  split_ifs with h1 h2 h3 h4 <;> simp_all

/-- Claim C5: segment validation accepts exactly the four renditions and
exactly the segment names ending in .ts or .m4s; any other input is
rejected with the invalid-input response before any descriptor lookup,
cache access or fetch occurs (the effect trace is empty), while a valid
input proceeds to the descriptor lookup first. -/
theorem claim_C5_segment_validation (env : Env) (uploadID rendition segment : String)
    (db : Option Video) :
    (allowedRendition rendition = true ↔
      rendition = "1080p" ∨ rendition = "720p" ∨ rendition = "480p" ∨ rendition = "360p")
    ∧ (goHasSuffix segment ".ts" = true ↔ ∃ p : String, segment = p ++ ".ts")
    ∧ (goHasSuffix segment ".m4s" = true ↔ ∃ p : String, segment = p ++ ".m4s")
    ∧ (¬(allowedRendition rendition = true ∧
          (goHasSuffix segment ".ts" = true ∨ goHasSuffix segment ".m4s" = true)) →
        getSegment env uploadID rendition segment db =
          ({ status := 400, contentType := none, body := .text "invalid segment" }, []))
    ∧ (allowedRendition rendition = true →
        (goHasSuffix segment ".ts" = true ∨ goHasSuffix segment ".m4s" = true) →
        (getSegment env uploadID rendition segment db).2.head? = some (.dbLookup uploadID)) := by
  refine ⟨allowedRendition_iff rendition, goHasSuffix_iff segment ".ts",
    goHasSuffix_iff segment ".m4s", ?_, ?_⟩
  · intro h
    unfold getSegment
    rw [if_pos (by tauto)]
  · intro hr hs
    unfold getSegment
    rw [if_neg (by tauto)]
    cases db with
    | none => rfl
    | some v =>
      by_cases hc : env.containerPresent = true
      · by_cases hcp : env.cachePresent = true
        · cases hg : env.cacheGetData (generateKey "segment" uploadID
              (blobBase env.containerName v.hlsMasterURL ++ "/" ++ rendition ++ "/" ++ segment)) with
          | some data => simp [hc, hcp, hg]
          | none =>
            cases hf : env.fetch (blobBase env.containerName v.hlsMasterURL ++ "/" ++ rendition
                ++ "/" ++ segment) with
            | error e => simp [hc, hcp, hg, hf]
            | ok data => simp [hc, hcp, hg, hf]
        · simp only [Bool.not_eq_true] at hcp
          cases hf : env.fetch (blobBase env.containerName v.hlsMasterURL ++ "/" ++ rendition
              ++ "/" ++ segment) with
          | error e => simp [hc, hcp, hf]
          | ok data => simp [hc, hcp, hf]
      · simp only [Bool.not_eq_true] at hc
        rcases hp : proxyBinary env (baseHLSPath v.hlsMasterURL ++ "/" ++ rendition
            ++ "/" ++ segment) with ⟨resp, effs⟩
        simp [hc, hp]

end StreamHive

namespace StreamHive

/-- Environment fixture: container client initialised, cache absent,
object store returns the single byte 1 for every path. -/
def envW : Env :=
  { containerPresent := true, containerName := "container", cachePresent := false,
    cacheGetData := fun _ => none, cacheGetFails := fun _ => false,
    cacheSetFails := fun _ => false, fetch := fun _ => .ok [1],
    httpResp := fun _ => .error () }

/-- Witness for claim C5: an invalid rendition with an invalid suffix is
rejected with an empty trace, and a valid request reaches the descriptor
lookup first. -/
theorem claim_C5_witness :
    getSegment envW "u1" "999p" "a.mp4" none =
      ({ status := 400, contentType := none, body := .text "invalid segment" }, [])
    ∧ (getSegment envW "u1" "720p" "a.ts" none).2.head? = some (.dbLookup "u1") := by
  refine ⟨(claim_C5_segment_validation envW "u1" "999p" "a.mp4" none).2.2.2.1 (by decide),
    (claim_C5_segment_validation envW "u1" "720p" "a.ts" none).2.2.2.2 (by decide) (by decide)⟩

/-- Claim C4: for a valid segment request on the private path whose cache
lookup misses and whose fetch succeeds with bytes X, the response is a
200 carrying X, for every value of the cache-get and cache-set failure
flags (both are only logged), and the fallback fetch of the resolved path
always occurs. -/
theorem claim_C4_cache_failures_absorbed (env : Env) (uploadID rendition segment : String)
    (v : Video) (X : List Nat)
    (hc : env.containerPresent = true)
    (hr : allowedRendition rendition = true)
    (hs : goHasSuffix segment ".ts" = true ∨ goHasSuffix segment ".m4s" = true)
    (hmiss : env.cacheGetData (generateKey "segment" uploadID
        (blobBase env.containerName v.hlsMasterURL ++ "/" ++ rendition ++ "/" ++ segment)) = none)
    (hfetch : env.fetch (blobBase env.containerName v.hlsMasterURL ++ "/" ++ rendition
        ++ "/" ++ segment) = .ok X) :
    (getSegment env uploadID rendition segment (some v)).1 =
      { status := 200, contentType := some (segContentType segment), body := .bytes X }
    ∧ Eff.fetchBlob (blobBase env.containerName v.hlsMasterURL ++ "/" ++ rendition
        ++ "/" ++ segment) ∈ (getSegment env uploadID rendition segment (some v)).2 := by
  unfold getSegment
  rw [if_neg (by tauto)]
  by_cases hcp : env.cachePresent = true
  · constructor <;> simp [hc, hcp, hmiss, hfetch]
  · simp only [Bool.not_eq_true] at hcp
    constructor <;> simp [hc, hcp, hfetch]

/-- Environment fixture for claim C4's witness: cache present but both
cache operations failing, store returning the single byte 9. -/
def envW4 : Env :=
  { containerPresent := true, containerName := "container", cachePresent := true,
    cacheGetData := fun _ => none, cacheGetFails := fun _ => true,
    cacheSetFails := fun _ => true, fetch := fun _ => .ok [9],
    httpResp := fun _ => .error () }

/-- Video fixture with an empty master reference. -/
def vidW : Video :=
  { uploadID := "u1", userID := "x", hlsMasterURL := "", thumbnailURL := "" }

/-- Witness for claim C4 with both cache operations failing. -/
theorem claim_C4_witness :
    (getSegment envW4 "u1" "720p" "s.ts" (some vidW)).1 =
      { status := 200, contentType := some (segContentType "s.ts"), body := .bytes [9] }
    ∧ Eff.fetchBlob (blobBase envW4.containerName vidW.hlsMasterURL ++ "/" ++ "720p"
        ++ "/" ++ "s.ts") ∈ (getSegment envW4 "u1" "720p" "s.ts" (some vidW)).2 := by
  exact claim_C4_cache_failures_absorbed envW4 "u1" "720p" "s.ts" vidW [9]
    rfl (by decide) (by decide) rfl rfl

/-- Claim C7: a cache set followed by a get of the same key before the
TTL elapses returns exactly the stored bytes, and a cache hit yields the
same response as a miss followed by a successful fetch of the same bytes,
so the two are indistinguishable to the caller. -/
theorem claim_C7_cache_round_trip (m : CacheBackend) (k : String) (v : List Nat)
    (ttl tSet tGet : Nat) (hfresh : tGet < tSet + ttl)
    (env : Env) (uploadID rendition segment : String) (vd : Video) (X : List Nat)
    (hc : env.containerPresent = true)
    (hr : allowedRendition rendition = true)
    (hs : goHasSuffix segment ".ts" = true ∨ goHasSuffix segment ".m4s" = true) :
    cacheServiceGet (cacheServiceSet m k v ttl tSet) k tGet = some v
    ∧ (getSegment { env with cachePresent := true, cacheGetData := fun _ => some X }
          uploadID rendition segment (some vd)).1 =
      (getSegment
          { env with cachePresent := true, cacheGetData := fun _ => none,
                     fetch := fun _ => .ok X }
          uploadID rendition segment (some vd)).1 := by
  constructor
  · unfold cacheServiceGet cacheServiceSet backendGet backendSet
    simp [hfresh]
  · unfold getSegment
    rw [if_neg (by tauto), if_neg (by tauto)]
    simp [hc]

/-- Witness for claim C7: a round trip through a backend holding key k2,
and hit-versus-fetch indistinguishability in the envW environment. -/
theorem claim_C7_witness :
    cacheServiceGet (cacheServiceSet ⟨fun _ => none⟩ "k1" [5, 6] 3600 100) "k1" 200 = some [5, 6]
    ∧ (getSegment { envW with cachePresent := true, cacheGetData := fun _ => some [7] }
          "u1" "720p" "s.ts" (some vidW)).1 =
      (getSegment
          { envW with cachePresent := true, cacheGetData := fun _ => none,
                      fetch := fun _ => .ok [7] }
          "u1" "720p" "s.ts" (some vidW)).1 := by
  exact claim_C7_cache_round_trip ⟨fun _ => none⟩ "k1" [5, 6] 3600 100 200 (by decide)
    envW "u1" "720p" "s.ts" vidW [7] rfl (by decide) (by decide)

end StreamHive

namespace StreamHive

theorem extractBlobPath_empty (cn : String) : extractBlobPath cn "" = "" := by
  unfold extractBlobPath
  rw [if_neg (by decide)]
  decide

theorem blobBase_empty (cn : String) : blobBase cn "" = "" := by
  unfold blobBase
  rw [extractBlobPath_empty cn]
  decide

/-- Environment fixture for the claim C8 counterexample. -/
def envC8 : Env :=
  { containerPresent := true, containerName := "media", cachePresent := false,
    cacheGetData := fun _ => none, cacheGetFails := fun _ => false,
    cacheSetFails := fun _ => false, fetch := fun _ => .ok [1],
    httpResp := fun _ => .error () }

/-- Counterexample to claim C8: a variant request for a descriptor whose
master reference URL is empty is not rejected with InvalidInput; the
handler resolves the path against the empty reference and performs a
fetch of /720p/index.m3u8, answering 200. -/
theorem claim_C8_counterexample :
    (getVariant envC8 "u1" "720p" (some vidW)).1 =
      { status := 200, contentType := some "application/vnd.apple.mpegurl", body := .bytes [1] }
    ∧ Eff.fetchBlob "/720p/index.m3u8" ∈ (getVariant envC8 "u1" "720p" (some vidW)).2 := by
  decide

/-- Claim C8 as amended: only a master request checks the descriptor's
master reference for emptiness, answering the invalid-input response with
no fetch in the trace; variant and segment requests perform no such check
and proceed to fetch a path derived from the empty reference. -/
theorem claim_C8_empty_master_reference (env : Env) (rewrite : List Nat → List Nat)
    (id r s : String) (v : Video) (hurl : v.hlsMasterURL = "") :
    getMaster env rewrite id (some v) =
      ({ status := 400, contentType := none, body := .text "master not ready" }, [.dbLookup id])
    ∧ (env.containerPresent = true → allowedRendition r = true →
        Eff.fetchBlob (blobBase env.containerName v.hlsMasterURL ++ "/" ++ r ++ "/index.m3u8")
          ∈ (getVariant env id r (some v)).2)
    ∧ (env.containerPresent = true → env.cachePresent = false →
        allowedRendition r = true → goHasSuffix s ".ts" = true →
        Eff.fetchBlob (blobBase env.containerName v.hlsMasterURL ++ "/" ++ r ++ "/" ++ s)
          ∈ (getSegment env id r s (some v)).2)
    ∧ blobBase env.containerName v.hlsMasterURL = "" := by
  refine ⟨?_, ?_, ?_, by rw [hurl]; exact blobBase_empty env.containerName⟩
  · unfold getMaster
    simp [hurl]
  · intro hc hr
    unfold getVariant
    rw [if_neg (by simp [hr])]
    cases hf : env.fetch (blobBase env.containerName v.hlsMasterURL ++ "/" ++ r
        ++ "/index.m3u8") with
    | error e => simp [hc, hf]
    | ok data => simp [hc, hf]
  · intro hc hcp hr hs
    unfold getSegment
    rw [if_neg (by tauto)]
    cases hf : env.fetch (blobBase env.containerName v.hlsMasterURL ++ "/" ++ r
        ++ "/" ++ s) with
    | error e => simp [hc, hcp, hf]
    | ok data => simp [hc, hcp, hf]

/-- Witness for the amended claim C8 in the envC8 environment with the
empty-reference descriptor. -/
theorem claim_C8_witness :
    getMaster envC8 (fun b => b) "u1" (some vidW) =
      ({ status := 400, contentType := none, body := .text "master not ready" }, [.dbLookup "u1"])
    ∧ Eff.fetchBlob (blobBase envC8.containerName vidW.hlsMasterURL ++ "/" ++ "720p"
        ++ "/index.m3u8") ∈ (getVariant envC8 "u1" "720p" (some vidW)).2
    ∧ Eff.fetchBlob (blobBase envC8.containerName vidW.hlsMasterURL ++ "/" ++ "720p"
        ++ "/" ++ "s.ts") ∈ (getSegment envC8 "u1" "720p" "s.ts" (some vidW)).2
    ∧ blobBase envC8.containerName vidW.hlsMasterURL = "" := by
  have h := claim_C8_empty_master_reference envC8 (fun b => b) "u1" "720p" "s.ts" vidW rfl
  exact ⟨h.1, h.2.1 rfl (by decide), h.2.2.1 rfl rfl (by decide) (by decide), h.2.2.2⟩

/-- Environment fixture for claim C9: container name container, cache
present but empty, object store serving bytes X exactly at the resolved
path u123/720p/seg1.ts. -/
def envC9 (X : List Nat) : Env :=
  { containerPresent := true, containerName := "container", cachePresent := true,
    cacheGetData := fun _ => none, cacheGetFails := fun _ => false,
    cacheSetFails := fun _ => false,
    fetch := fun p => if p = "u123/720p/seg1.ts" then .ok X else .error (.storeErr "wrong path"),
    httpResp := fun _ => .error () }

/-- Descriptor fixture for claim C9 with an absolute store URL. -/
def vidC9 : Video :=
  { uploadID := "u123", userID := "user9", thumbnailURL := "",
    hlsMasterURL := "https://acct.blob.core.windows.net/container/u123/master.m3u8" }

/-- Claim C9: for a descriptor whose master reference is an absolute
store URL ending in container/u123/master.m3u8, the segment request
(720p, seg1.ts) resolves to store path u123/720p/seg1.ts, a successful
fetch of bytes X is served as X with content-type video/mp2t, and the
resolver strips the host and container prefix while leaving relative
paths intact apart from a leading slash. -/
theorem claim_C9_end_to_end (X : List Nat) :
    (getSegment (envC9 X) "u123" "720p" "seg1.ts" (some vidC9)).1 =
      { status := 200, contentType := some "video/mp2t", body := .bytes X }
    ∧ Eff.fetchBlob "u123/720p/seg1.ts" ∈
        (getSegment (envC9 X) "u123" "720p" "seg1.ts" (some vidC9)).2
    ∧ blobBase "container" vidC9.hlsMasterURL = "u123"
    ∧ extractBlobPath "container" vidC9.hlsMasterURL = "u123/master.m3u8"
    ∧ extractBlobPath "container" "/u123/master.m3u8" = "u123/master.m3u8"
    ∧ extractBlobPath "container" "u123/master.m3u8" = "u123/master.m3u8" := by
  refine ⟨rfl, ?_, by decide, by decide, by decide, by decide⟩
  have ht : (getSegment (envC9 X) "u123" "720p" "seg1.ts" (some vidC9)).2 =
      [.dbLookup "u123",
       .cacheGet (generateKey "segment" "u123" "u123/720p/seg1.ts") false,
       .fetchBlob "u123/720p/seg1.ts",
       .cacheSet (generateKey "segment" "u123" "u123/720p/seg1.ts") false] := rfl
  rw [ht]
  exact List.Mem.tail _ (List.Mem.tail _ (.head _))

end StreamHive

namespace StreamHive

/-- Counterexample to claim C6: the key serialisation joins the three
components with colons without escaping, so the distinct triples
(segment, a:b, c) and (segment, a, b:c) produce the identical digest
input segment:a:b:c and hence the identical fingerprint: they differ in
the second and third components yet their fingerprints are equal, not
distinct with overwhelming probability. -/
theorem claim_C6_counterexample :
    generateKey "segment" "a:b" "c" = generateKey "segment" "a" "b:c"
    ∧ ¬((("a:b" : String), ("c" : String)) = (("a" : String), ("b:c" : String))) := by
  have h : generateKeyInput "segment" "a:b" "c" = generateKeyInput "segment" "a" "b:c" := by
    decide
  exact ⟨by unfold generateKey; rw [h], by decide⟩

/-- Claim C6 as amended: the key function is pure and deterministic, the
digest is 128 bits (16 bytes, 32 hexadecimal characters in the key), and
for every pair of triples whose components contain no colon in the class
and upload id, distinct triples produce distinct digest inputs, so their
fingerprints differ unless MD5 itself collides; without that restriction
the colon-joined serialisation can identify distinct triples. -/
theorem claim_C6_key_determinism_and_injectivity
    (cls id1 p1 cls2 id2 p2 s : String)
    (hc1 : ':' ∉ cls.data) (hc2 : ':' ∉ cls2.data)
    (hi1 : ':' ∉ id1.data) (hi2 : ':' ∉ id2.data) :
    (generateKey cls id1 p1).length = cls.length + 33
    ∧ (md5Bytes (utf8Bytes s)).length = 16
    ∧ (generateKeyInput cls id1 p1 = generateKeyInput cls2 id2 p2 →
        cls = cls2 ∧ id1 = id2 ∧ p1 = p2)
    ∧ (cls = cls2 → id1 = id2 → p1 = p2 →
        generateKey cls id1 p1 = generateKey cls2 id2 p2) := by
  refine ⟨?_, md5Bytes_length (utf8Bytes s), ?_, ?_⟩
  · unfold generateKey
    have h32 : (bytesHex (md5Bytes (utf8Bytes (generateKeyInput cls id1 p1)))).length = 32 := by
      rw [bytesHex_length, md5Bytes_length]
    simp [String.length_append, h32]
    decide
  · exact generateKeyInput_inj cls id1 p1 cls2 id2 p2 hc1 hc2 hi1 hi2
  · rintro rfl rfl rfl
    rfl

/-- Witness for the amended claim C6 at the concrete triple
(segment, u1, p/q.ts). -/
theorem claim_C6_witness :
    (generateKey "segment" "u1" "p/q.ts").length = 40
    ∧ (md5Bytes (utf8Bytes "segment:u1:p/q.ts")).length = 16
    ∧ ("segment" : String) = "segment" ∧ ("u1" : String) = "u1"
    ∧ ("p/q.ts" : String) = "p/q.ts"
    ∧ generateKey "segment" "u1" "p/q.ts" = generateKey "segment" "u1" "p/q.ts" := by
  have h := claim_C6_key_determinism_and_injectivity "segment" "u1" "p/q.ts"
    "segment" "u1" "p/q.ts" "segment:u1:p/q.ts" (by decide) (by decide) (by decide) (by decide)
  have h3 := h.2.2.1 rfl
  exact ⟨by rw [h.1]; decide, h.2.1, h3.1, h3.2.1, h3.2.2, h.2.2.2 rfl rfl rfl⟩

end StreamHive

namespace StreamHive

set_option maxRecDepth 100000 in
/-- Known-answer test for the MD5 embedding: the digest of the empty
message. -/
theorem md5_known_answer_empty :
    bytesHex (md5Bytes (utf8Bytes "")) = "d41d8cd98f00b204e9800998ecf8427e" := by decide

set_option maxRecDepth 100000 in
/-- Known-answer test for the MD5 embedding: the digest of abc. -/
theorem md5_known_answer_abc :
    bytesHex (md5Bytes (utf8Bytes "abc")) = "900150983cd24fb0d6963f7d28e17f72" := by decide

end StreamHive
